import Mathlib

/-!
Shallow embedding of the Timeline-Box visual (src/src/visual.ts).

The timeline visual converts a host-supplied tabular data view into typed
event records (`CONVERTER`), caps them at 100 rows, windows them by year
around the current date (`update`, lines 130-147), and lays the surviving
records out alternately below/above a horizontal time axis (`renderLine`,
`renderBox`).  The definitions below translate those functions; JavaScript
runtime errors (property access on `null`/`undefined`) are modelled with
`Except String`.
-/

namespace TimelineBox

/-! ## JavaScript date values -/

/-- Leap-year test of the proleptic Gregorian calendar JavaScript dates use. -/
def isLeapN (y : Nat) : Bool := (y % 4 == 0 && y % 100 != 0) || y % 400 == 0

/-- Number of leap years in the interval `[0, y)` (year 0 is a leap year). -/
def leapsBefore (y : Nat) : Nat := (y + 3) / 4 - (y + 99) / 100 + (y + 399) / 400

/-- Day number (days since 0000-01-01) of Jan 1 of year `y`. -/
def jan1Days (y : Nat) : Nat := 365 * y + leapsBefore y

/-- Days in the months strictly before month `m` (0-based, as JS `getMonth`)
of a year whose February has 29 days iff `leap`. -/
def monthOffset (leap : Bool) (m : Nat) : Nat :=
  let b : Nat := if leap then 1 else 0
  match m with
  | 0 => 0
  | 1 => 31
  | 2 => 59 + b
  | 3 => 90 + b
  | 4 => 120 + b
  | 5 => 151 + b
  | 6 => 181 + b
  | 7 => 212 + b
  | 8 => 243 + b
  | 9 => 273 + b
  | 10 => 304 + b
  | _ => 334 + b

/-- Day number of the civil date `(y, m, d)`: `m` 0-based (JS `getMonth`),
`d` 1-based (JS `getDate`). -/
def civilDays (y m d : Nat) : Int := (jan1Days y : Int) + monthOffset (isLeapN y) m + d - 1

/-- Day number of the Unix epoch 1970-01-01. -/
def epochDays : Int := 719528

/-- Milliseconds since the Unix epoch of midnight UTC on the valid civil date
`(y, m, d)`, as JS `Date#getTime` returns for such a date. -/
def getTimeValid (y m d : Nat) : Int := (civilDays y m d - epochDays) * 86400000

/-- Model of a JavaScript `Date` value: an Invalid Date (whose time and
fields are `NaN`, modelled as `none` in the observers below) or a civil
date.  Only years `≥ 0` are given a time; the program never builds earlier
dates. -/
inductive JSDate where
  | invalid : JSDate
  | valid (year : Int) (month : Nat) (day : Nat) : JSDate
deriving DecidableEq

/-- JS `getFullYear`: `NaN` (`none`) on an Invalid Date. -/
def JSDate.getFullYearN : JSDate → Option Int
  | .invalid => none
  | .valid y _ _ => some y

/-- JS `getTime`: `NaN` (`none`) on an Invalid Date. -/
def JSDate.getTimeN : JSDate → Option Int
  | .invalid => none
  | .valid y m d => some (getTimeValid y.toNat m d)

/-- Well-formed calendar date: the field ranges JS `Date` observers keep. -/
def JSDate.wfB : JSDate → Bool
  | .invalid => false
  | .valid y m d => 0 ≤ y && m < 12 && 1 ≤ d && d ≤ 31

/-! ## Data-view cells and event records -/

/-- A data-view cell as the converter sees it: `null` or a primitive rendered
by its `toString` (numbers and booleans are carried as their string forms,
which is all the converter observes of them besides truthiness of `""`). -/
inductive Cell where
  | null : Cell
  | str (s : String) : Cell
deriving DecidableEq

/-- JS `row[i]`: `undefined` (`none`) when `i` is `-1` or past the row. -/
def rowGet (row : List Cell) (i : Int) : Option Cell :=
  if 0 ≤ i then row[i.toNat]? else none

/-- JS truthiness of a cell slot: `undefined`, `null` and `""` are falsy. -/
def truthy : Option Cell → Bool
  | some (.str s) => s ≠ ""
  | _ => false

/-- JS `slot.toString()`: throws a `TypeError` on `null`/`undefined`. -/
def cellToString : Option Cell → Except String String
  | some (.str s) => .ok s
  | some .null => .error "TypeError: Cannot read properties of null (reading toString)"
  | none => .error "TypeError: Cannot read properties of undefined (reading toString)"

/-- String of a truthy cell slot (the only use sites are guarded by `truthy`). -/
def cellStr : Option Cell → String
  | some (.str s) => s
  | _ => ""

/-- One timeline entry (interface `TimelineData`); the opaque host
`selectionId` is modelled by the row index it is built from. -/
structure ERecord where
  Company : String
  Type' : String
  Description : Option String
  Date : Option JSDate
  DocumentLink : Option String
  HeaderImage : Option String
  FooterImage : Option String
  selectionId : Nat
deriving DecidableEq

/-- Placeholder record for positional (`getD`) access in statements. -/
def dfltRec : ERecord := ⟨"", "", none, none, none, none, none, 0⟩

/-! ## Row converter (`Visual.CONVERTER`, lines 514-552) -/

/-- Resolved column index per role; `-1` means not found. -/
structure RoleIdx where
  company : Int
  type : Int
  descr : Int
  date : Int
  link : Int
  header : Int
  footer : Int
deriving DecidableEq

/-- Initial role indices (`-1` everywhere). -/
def noRoles : RoleIdx := ⟨-1, -1, -1, -1, -1, -1, -1⟩

/-- JS `column.roles.hasOwnProperty(r)` with a column modelled by its role-name list. -/
def hasRole (c : List String) (r : String) : Bool := c.contains r

/-- One iteration of the role scan (lines 521-535): the `if`/`else if`
chain run for column `c` at index `i`. -/
def applyColumn (i : Nat) (c : List String) (acc : RoleIdx) : RoleIdx :=
  if hasRole c "Company" then { acc with company := (i : Int) }
  else if hasRole c "Type" then { acc with type := (i : Int) }
  else if hasRole c "Description" then { acc with descr := (i : Int) }
  else if hasRole c "Date" then { acc with date := (i : Int) }
  else if hasRole c "DocumentLink" then { acc with link := (i : Int) }
  else if hasRole c "HeaderImage" then { acc with header := (i : Int) }
  else if hasRole c "FooterImage" then { acc with footer := (i : Int) }
  else acc

/-- Role scan loop of `CONVERTER` (lines 520-536): one `if`/`else if` chain
per column, later columns overwriting earlier ones. -/
def scanRolesFrom : Nat → List (List String) → RoleIdx → RoleIdx
  | _, [], acc => acc
  | i, c :: rest, acc => scanRolesFrom (i + 1) rest (applyColumn i c acc)

/-- Role indices of a column list. -/
def scanRoles (cols : List (List String)) : RoleIdx := scanRolesFrom 0 cols noRoles

/-- Row body of `CONVERTER` (lines 538-549).  `Company` is read with a bare
`.toString()` (no guard), so a `null`/absent company cell throws; every other
field is guarded by a truthiness test and degrades to `null` / `''`.  The
date cell goes through `new Date(Date.parse(...))`, modelled by the abstract
host parser `dateParse` (an unparseable string yields `JSDate.invalid`, not
`null`). -/
def convertRow (idx : RoleIdx) (dateParse : String → JSDate) (i : Nat)
    (row : List Cell) : Except String ERecord :=
  match cellToString (rowGet row idx.company) with
  | .error e => .error e
  | .ok comp =>
    .ok {
      Company := comp
      Type' := if truthy (rowGet row idx.type) then cellStr (rowGet row idx.type) else ""
      Description := if truthy (rowGet row idx.descr) then some (cellStr (rowGet row idx.descr)) else none
      Date := if truthy (rowGet row idx.date) then some (dateParse (cellStr (rowGet row idx.date))) else none
      DocumentLink := if truthy (rowGet row idx.link) then some (cellStr (rowGet row idx.link)) else none
      HeaderImage := if truthy (rowGet row idx.header) then some (cellStr (rowGet row idx.header)) else none
      FooterImage := if truthy (rowGet row idx.footer) then some (cellStr (rowGet row idx.footer)) else none
      selectionId := i
    }

/-- Row loop of `CONVERTER`: rows in order, an exception aborting the loop. -/
def convRows (idx : RoleIdx) (dateParse : String → JSDate) :
    Nat → List (List Cell) → Except String (List ERecord)
  | _, [] => .ok []
  | i, row :: rest =>
    match convertRow idx dateParse i row with
    | .error e => .error e
    | .ok er =>
      match convRows idx dateParse (i + 1) rest with
      | .error e => .error e
      | .ok ers => .ok (er :: ers)

/-- The full converter (`Visual.CONVERTER`). -/
def CONVERTER (cols : List (List String)) (rows : List (List Cell))
    (dateParse : String → JSDate) : Except String (List ERecord) :=
  convRows (scanRoles cols) dateParse 0 rows

/-- Conversion followed by the 100-record cap (`update` line 128:
`timelineData.slice(0, 100)`). -/
def cappedRecords (cols : List (List String)) (rows : List (List Cell))
    (dateParse : String → JSDate) : Except String (List ERecord) :=
  (CONVERTER cols rows dateParse).map (fun l => l.take 100)

/-! ## Date window filter (`update`, lines 130-147) -/

/-- JS `new Date(y, 0, 1).getFullYear()`: the constructor maps a year
argument in `0..99` to `1900 + y`. -/
def jsNewDateYear (y : Int) : Int := if 0 ≤ y ∧ y ≤ 99 then 1900 + y else y

/-- One callback of the windowing `map` (lines 135 and 137):
`d => { if (d.Date.getFullYear() cmp bound) return d; }`.  A `null` date
throws; an Invalid Date gives `NaN`, every comparison with which is false,
so the callback returns `undefined` (`none`) and the record is filtered out. -/
def windowStep (p : Int → Bool) (r : ERecord) : Except String (Option ERecord) :=
  match r.Date with
  | none => .error "TypeError: Cannot read properties of null (reading getFullYear)"
  | some d =>
    match d.getFullYearN with
    | none => .ok none
    | some y => if p y then .ok (some r) else .ok none

/-- One `.map(cb).filter(e => e)` pass over the records. -/
def windowPass (p : Int → Bool) : List ERecord → Except String (List ERecord)
  | [] => .ok []
  | r :: rest =>
    match windowStep p r with
    | .error e => .error e
    | .ok o =>
      match windowPass p rest with
      | .error e => .error e
      | .ok l => .ok (match o with | some x => x :: l | none => l)

/-- Both windowing passes (lines 135 and 137): keep years `≥ minYear`, then
years `≤ maxYear`. -/
def windowFilter (minYear maxYear : Int) (l : List ERecord) : Except String (List ERecord) :=
  match windowPass (fun y => decide (minYear ≤ y)) l with
  | .error e => .error e
  | .ok l1 => windowPass (fun y => decide (y ≤ maxYear)) l1

/-! ## Fallback domain (`update`, lines 143-146) -/

/-- JS numeric coercion `Math.min`/`Math.max` applies to each element of
`timelineData.map(d => d.Date)`: `null` coerces to `0`, an Invalid Date to
`NaN` (`none`), a valid date to its time. -/
def dateTimeNum : Option JSDate → Option Int
  | none => some 0
  | some .invalid => none
  | some (.valid y m d) => some (getTimeValid y.toNat m d)

/-- Times of all record dates, `none` as soon as one is `NaN` (a `NaN`
argument poisons `Math.min`/`Math.max`). -/
def recTimes : List ERecord → Option (List Int)
  | [] => some []
  | r :: rest =>
    match dateTimeNum r.Date, recTimes rest with
    | some t, some ts => some (t :: ts)
    | _, _ => none

/-- Embeds `new Date(Math.min.apply(null, timelineData.map(d => d.Date)))`:
the minimum of the coerced times is attained at one of the arguments and
`new Date(t)` rebuilds the calendar date with time `t`, so the result is the
(first) record date whose time is minimal; when the minimum `0` comes only
from a `null` date the rebuilt date is the epoch 1970-01-01; an empty list
(`Math.min()` is `Infinity`) or a `NaN` time gives an Invalid Date. -/
def fallbackMinDate (l : List ERecord) : JSDate :=
  match recTimes l with
  | none => .invalid
  | some [] => .invalid
  | some (t :: ts) =>
    let m := ts.foldl min t
    match l.findSome? (fun r =>
      match r.Date with
      | some (.valid y mo d) =>
        if getTimeValid y.toNat mo d = m then some (JSDate.valid y mo d) else none
      | _ => none) with
    | some dd => dd
    | none => .valid 1970 0 1

/-- Embeds `new Date(Math.max.apply(null, timelineData.map(d => d.Date)))`,
symmetrically to `fallbackMinDate` (`Math.max()` of nothing is `-Infinity`). -/
def fallbackMaxDate (l : List ERecord) : JSDate :=
  match recTimes l with
  | none => .invalid
  | some [] => .invalid
  | some (t :: ts) =>
    let m := ts.foldl max t
    match l.findSome? (fun r =>
      match r.Date with
      | some (.valid y mo d) =>
        if getTimeValid y.toNat mo d = m then some (JSDate.valid y mo d) else none
      | _ => none) with
    | some dd => dd
    | none => .valid 1970 0 1

/-- JS `new Date(d.getFullYear() + shift, 0, 1)` (lines 145-146): Jan 1 of
the date's year plus `shift`, through the constructor's `0..99 ↦ 1900+y`
remapping; an Invalid Date stays invalid (`NaN` year). -/
def jan1Reset (d : JSDate) (shift : Int) : JSDate :=
  match d with
  | .invalid => .invalid
  | .valid y _ _ => .valid (jsNewDateYear (y + shift)) 0 1

/-- The record sequence and axis domain `update` hands to the render steps. -/
structure Resolved where
  active : List ERecord
  domMin : JSDate
  domMax : JSDate
deriving DecidableEq

/-- Lines 130-147 of `update`: window the (capped) records by the year
bounds `Jan 1 (currentYear - PreviousYear)` / `Jan 1 (currentYear +
FutureYear)`; a non-empty windowed result becomes the active set with that
window as domain, otherwise the full sequence stays active and the domain is
recomputed from the data extent. -/
def updateWindow (curYear prevYears futYears : Int) (timelineData : List ERecord) :
    Except String Resolved :=
  let minY := jsNewDateYear (curYear - prevYears)
  let maxY := jsNewDateYear (curYear + futYears)
  match (if timelineData.length > 0 then windowFilter minY maxY timelineData else .ok []) with
  | .error e => .error e
  | .ok localData =>
    if localData.length > 0 then
      .ok { active := localData, domMin := .valid minY 0 1, domMax := .valid maxY 0 1 }
    else
      .ok { active := timelineData
            domMin := jan1Reset (fallbackMinDate timelineData) 0
            domMax := jan1Reset (fallbackMaxDate timelineData) 1 }

/-! ## Axis tick granularity (`renderXandYAxis` lines 194-207, `diff_years` lines 600-604) -/

/-- JS `Math.round`: half-integers round toward positive infinity. -/
def jsRound (q : ℚ) : Int := ⌊q + 1 / 2⌋

/-- The `diff_years(dt2, dt1)` helper: millisecond difference to seconds, to
days, to 365.25-day years, rounded then taken absolute. -/
def diff_years (t2 t1 : Int) : Int :=
  |jsRound ((((t2 : ℚ) - (t1 : ℚ)) / 1000) / (60 * 60 * 24) / (365.25 : ℚ))|

/-- Line 194: `this.diff_years(minDate, maxDate) <= 1` selects monthly
ticks, else yearly; an invalid bound gives `NaN`, every comparison with
which is false, selecting the yearly branch. -/
def useMonthlyTicks (minDate maxDate : JSDate) : Bool :=
  match minDate.getTimeN, maxDate.getTimeN with
  | some tmin, some tmax => diff_years tmin tmax ≤ 1
  | _, _ => false

/-! ## Alternating layout (`renderLine` lines 264-298, `renderBox` lines 368-386) -/

/-- Argument passed to `yScale` for the marker bar of the record at 0-based
position `i` (`renderLine`, lines 268-279): even positions sit below the
axis at `-27`; odd positions sit above at `70` when `Math.ceil(i / 2)` is
even, else `30`. -/
def renderLineYArg (i : Nat) : Int :=
  if i % 2 = 0 then -27
  else if ((i + 1) / 2) % 2 = 0 then 70 else 30

/-- Argument passed to `yScale` inside the bar-height computation
(`renderLine`, lines 280-298): the 2-level stagger within each side, keyed
by `i / 2` below and `Math.ceil(i / 2)` above. -/
def renderLineHeightArg (i : Nat) : Int :=
  if i % 2 = 0 then
    if (i / 2) % 2 = 0 then -45 else -85
  else
    if ((i + 1) / 2) % 2 = 0 then -45 else -85

/-- Argument passed to `yScale` for the content box translate of the record
at position `i` (`renderBox`, lines 368-386). -/
def renderBoxYArg (i : Nat) : Int :=
  if i % 2 = 0 then
    if (i / 2) % 2 = 0 then -80 else -40
  else
    if ((i + 1) / 2) % 2 = 0 then 95 else 55

/-! ## Header and footer (`renderHeaderAndFooter`, lines 167-186) -/

/-- Value of the `src` attribute built by
`validDataUrl(img) ? img : ""` with `validDataUrl` (an external package)
abstracted as `validD`; the package returns `false` on a non-string such as
`null`. -/
def imgSrc (validD : String → Bool) : Option String → String
  | some s => if validD s then s else ""
  | none => ""

/-- Lowercasing as `String.prototype.toLowerCase` (ASCII is all the settings
values use). -/
def jsToLower (s : String) : String := s.toLower

/-- The header/footer render step: `let [timeline] = timelineData` destructures
the first record (`undefined` on an empty sequence), and each branch then
reads `timeline.HeaderImage` / `timeline.FooterImage` — a `TypeError` when
`timeline` is `undefined`.  Returns the `src` the created `img` element gets
(`none` when the layout setting creates no image element). -/
def renderHeaderAndFooter (layout : String) (validD : String → Bool)
    (timelineData : List ERecord) : Except String (Option String) :=
  if jsToLower layout = "header" then
    match timelineData.head? with
    | none => .error "TypeError: Cannot read properties of undefined (reading HeaderImage)"
    | some t => .ok (some (imgSrc validD t.HeaderImage))
  else if jsToLower layout = "footer" then
    match timelineData.head? with
    | none => .error "TypeError: Cannot read properties of undefined (reading FooterImage)"
    | some t => .ok (some (imgSrc validD t.FooterImage))
  else
    .ok none

/-! ## Tooltip content (`renderBox` mousemove handler, lines 423-435) -/

/-- Decimal value of a digit string. -/
def digitsVal (l : List Char) : Nat :=
  l.foldl (fun n c => n * 10 + (c.toNat - 48)) 0

/-- JS `String(+s)` — the numeric coercion the stray unary plus in the
Clinical Trials branch applies, followed by stringification.  Modelled for
the string shapes the data fields take: all-whitespace coerces to `0`,
an optionally signed decimal integer to its value, anything else to `NaN`
(fractional, hexadecimal and exponent literals are left outside the model). -/
def jsNumberString (s : String) : String :=
  let t := ((s.data.dropWhile Char.isWhitespace).reverse.dropWhile Char.isWhitespace).reverse
  if t.isEmpty then "0"
  else if t.all Char.isDigit then toString (digitsVal t)
  else
    match t with
    | '-' :: rest =>
      if !rest.isEmpty && rest.all Char.isDigit then
        if digitsVal rest = 0 then "0" else "-" ++ toString (digitsVal rest)
      else "NaN"
    | '+' :: rest =>
      if !rest.isEmpty && rest.all Char.isDigit then toString (digitsVal rest)
      else "NaN"
    | _ => "NaN"

/-- The `dateHtml` prefix (line 425): month is 0-based so it is printed
`+1`; on an Invalid Date each observer is `NaN`. -/
def dateHtmlOf : JSDate → String
  | .invalid => "<div>NaN/NaN/NaN</div>"
  | .valid y m d => "<div>" ++ toString (m + 1) ++ "/" ++ toString d ++ "/" ++ toString y ++ "</div>"

/-- The mousemove handler's `html` (lines 424-433), with the `sanitize-html`
package abstracted as `sanitize` (applied to the raw field value, `none` for
`null`).  The Regulatory and Commercial branches append the sanitized
description; the Clinical Trials branch contains `'<div>' + +
sanitizeHtml(d.Description) + '</div>'`, whose second `+` is a unary numeric
coercion of the sanitized text.  A `null` date throws on `getMonth`. -/
def tooltipHtml (sanitize : Option String → String) (r : ERecord) : Except String String :=
  match r.Date with
  | none => .error "TypeError: Cannot read properties of null (reading getMonth)"
  | some dt =>
    let dateHtml := dateHtmlOf dt
    if r.Type' = "Regulatory" then
      .ok (dateHtml ++ "<div>" ++ sanitize (some r.Company) ++ "</div>" ++
        "<div>" ++ sanitize r.Description ++ "</div>")
    else if r.Type' = "Commercial" then
      .ok (dateHtml ++ "<div>" ++ sanitize (some r.Company) ++ "</div>" ++
        "<div>" ++ sanitize r.Description ++ "</div>")
    else if r.Type' = "Clinical Trials" then
      .ok (dateHtml ++ "<div>" ++ sanitize (some r.Company) ++ "</div>" ++
        "<div>" ++ jsNumberString (sanitize r.Description) ++ "</div>")
    else
      .ok ""

/-! ## Specification-side predicates -/

/-- Claim-side description of the window filter (C2): a record is kept iff
its date's year lies in the closed year window. -/
def inWindowB (minYear maxYear : Int) (r : ERecord) : Bool :=
  match r.Date with
  | some (.valid y _ _) => decide (minYear ≤ y ∧ y ≤ maxYear)
  | _ => false

/-! ## Window-filter lemmas -/

theorem windowPass_ok_of_noNull (p : Int → Bool) (l : List ERecord)
    (h : ∀ r ∈ l, r.Date ≠ none) :
    windowPass p l = .ok (l.filter (fun r =>
      match r.Date with
      | some (.valid y _ _) => p y
      | _ => false)) := by
  induction l with
  | nil => rfl
  | cons r rest ih =>
    have hr : r.Date ≠ none := h r (List.mem_cons_self r rest)
    have ih' := ih (fun x hx => h x (List.mem_cons_of_mem _ hx))
    match hd : r.Date with
    | none => exact absurd hd hr
    | some .invalid =>
      simp [windowPass, windowStep, hd, JSDate.getFullYearN, ih', List.filter_cons]
    | some (.valid y m d) =>
      by_cases hp : p y = true
      · simp [windowPass, windowStep, hd, JSDate.getFullYearN, hp, ih', List.filter_cons]
      · simp only [Bool.not_eq_true] at hp
        simp [windowPass, windowStep, hd, JSDate.getFullYearN, hp, ih', List.filter_cons]

theorem windowFilter_ok_of_noNull (minYear maxYear : Int) (l : List ERecord)
    (h : ∀ r ∈ l, r.Date ≠ none) :
    windowFilter minYear maxYear l = .ok (l.filter (inWindowB minYear maxYear)) := by
  have h1 := windowPass_ok_of_noNull (fun y => decide (minYear ≤ y)) l h
  have h2 := windowPass_ok_of_noNull (fun y => decide (y ≤ maxYear))
      (l.filter (fun r => match r.Date with
        | some (.valid y _ _) => decide (minYear ≤ y)
        | _ => false))
      (fun r hr => h r (List.mem_of_mem_filter hr))
  simp only [windowFilter, h1]
  rw [h2, List.filter_filter]
  congr 1
  apply List.filter_congr
  intro r _
  match hd : r.Date with
  | none => simp [inWindowB, hd]
  | some .invalid => simp [inWindowB, hd]
  | some (.valid y m d) => simp [inWindowB, hd, Bool.decide_and, Bool.and_comm]

/-! ## Theorems for the claims -/

/-- C1: in the alternating layout of `renderLine`/`renderBox`, the marker of
the record at 0-based position `i` goes to the below-axis lane (bar level
`-27`) iff `i` is even and to the above-axis lane (level `30` or `70`) iff
`i` is odd; above, the near level `30` is used when `ceil(i/2)` is odd and
the far level `70` when it is even; below, the stagger level (content box at
`-80`/`-40`, bar height via `-45`/`-85`) is keyed by the parity of
`floor(i/2)`; every stagger choice repeats with period 4, so the 4-level
cycle recurs every 4 positions. -/
theorem claim_C1_alternating_layout (i : Nat) :
    (renderLineYArg i = -27 ↔ i % 2 = 0) ∧
    ((renderLineYArg i = 30 ∨ renderLineYArg i = 70) ↔ i % 2 = 1) ∧
    (renderLineYArg i = 30 ↔ (i % 2 = 1 ∧ ((i + 1) / 2) % 2 = 1)) ∧
    (renderLineYArg i = 70 ↔ (i % 2 = 1 ∧ ((i + 1) / 2) % 2 = 0)) ∧
    (renderBoxYArg i = -80 ↔ (i % 2 = 0 ∧ (i / 2) % 2 = 0)) ∧
    (renderBoxYArg i = -40 ↔ (i % 2 = 0 ∧ (i / 2) % 2 = 1)) ∧
    (renderLineHeightArg i = -45 ↔ (i % 2 = 0 ∧ (i / 2) % 2 = 0) ∨ (i % 2 = 1 ∧ ((i + 1) / 2) % 2 = 0)) ∧
    renderLineYArg (i + 4) = renderLineYArg i ∧
    renderBoxYArg (i + 4) = renderBoxYArg i ∧
    renderLineHeightArg (i + 4) = renderLineHeightArg i := by
  simp only [renderLineYArg, renderBoxYArg, renderLineHeightArg]
  split_ifs <;> (try norm_num) <;> omega

/-- C2: when every record carries a non-null, parseable (valid) date, the
window filter keeps a record iff its year is at least the year of Jan 1 of
`currentYear - previousYears` and at most the year of Jan 1 of
`currentYear + futureYears` (both via the JS `Date` constructor), keeping
input order. -/
theorem claim_C2_window_filter (curYear prevYears futYears : Int) (l : List ERecord)
    (hval : ∀ r ∈ l, ∃ y m d, r.Date = some (.valid y m d)) :
    windowFilter (jsNewDateYear (curYear - prevYears)) (jsNewDateYear (curYear + futYears)) l =
      .ok (l.filter (inWindowB (jsNewDateYear (curYear - prevYears))
        (jsNewDateYear (curYear + futYears)))) := by
  apply windowFilter_ok_of_noNull
  intro r hr
  obtain ⟨y, m, d, hd⟩ := hval r hr
  simp [hd]

/-- Sample records for the concrete window-filter instances. -/
def wrec2020 : ERecord := { dfltRec with Date := some (.valid 2020 5 1) }

/-- Record dated 2023-06-01. -/
def wrec2023 : ERecord := { dfltRec with Date := some (.valid 2023 5 1) }

/-- Witness for C2: with records dated 2020 and 2023, `previousYears = 2`,
`futureYears = 1` and current year 2024, only the 2023 record survives. -/
theorem claim_C2_window_filter_witness :
    windowFilter (jsNewDateYear (2024 - 2)) (jsNewDateYear (2024 + 1)) [wrec2020, wrec2023] =
      .ok [wrec2023] := by
  rw [claim_C2_window_filter 2024 2 1 [wrec2020, wrec2023] (by
    intro r hr
    rcases List.mem_cons.mp hr with h | h
    · exact ⟨2020, 5, 1, by rw [h]; rfl⟩
    · have h' : r = wrec2023 := by simpa using h
      exact ⟨2023, 5, 1, by rw [h']; rfl⟩)]
  rfl

/-- Record with a null date. -/
def cexNullRec : ERecord := dfltRec

/-- Record dated 2023-06-01 (inside the sample window). -/
def cexValidRec : ERecord := { dfltRec with Date := some (.valid 2023 5 1) }

/-- C4 counterexample: a sequence holding an in-window record and a
null-dated record does not have the null silently dropped — the windowing
step throws a TypeError reading `getFullYear` of `null`, so not even the
in-window record is kept. -/
theorem claim_C4_counterexample :
    windowFilter 2022 2025 [cexValidRec, cexNullRec] =
      .error "TypeError: Cannot read properties of null (reading getFullYear)" ∧
    ∀ kept : List ERecord, windowFilter 2022 2025 [cexValidRec, cexNullRec] ≠ .ok kept := by
  refine ⟨by rfl, ?_⟩
  intro kept h
  rw [show windowFilter 2022 2025 [cexValidRec, cexNullRec] =
    .error "TypeError: Cannot read properties of null (reading getFullYear)" from rfl] at h
  exact Except.noConfusion h

theorem windowPass_error_of_null (p : Int → Bool) (l : List ERecord) (r : ERecord)
    (hr : r ∈ l) (hd : r.Date = none) :
    ∃ e, windowPass p l = .error e := by
  induction l with
  | nil => cases hr
  | cons a rest ih =>
    rcases List.mem_cons.mp hr with hh | hh
    · have ha : a.Date = none := hh ▸ hd
      refine ⟨"TypeError: Cannot read properties of null (reading getFullYear)", ?_⟩
      simp [windowPass, windowStep, ha]
    · obtain ⟨e, he⟩ := ih hh
      match hs : windowStep p a with
      | .error e2 => exact ⟨e2, by simp [windowPass, hs]⟩
      | .ok o => exact ⟨e, by simp [windowPass, hs, he]⟩

/-- C4 (amended): a record whose date is null makes the date-window filter
throw (`d.Date.getFullYear()` on `null`) instead of silently dropping it;
only records whose date is an Invalid Date (unparseable input) are silently
filtered out, by the NaN year failing both comparisons. -/
theorem claim_C4_null_date_throws (minYear maxYear : Int) (l : List ERecord)
    (h : ∃ r ∈ l, r.Date = none) :
    ∃ e, windowFilter minYear maxYear l = .error e := by
  obtain ⟨r, hr, hd⟩ := h
  obtain ⟨e, he⟩ := windowPass_error_of_null (fun y => decide (minYear ≤ y)) l r hr hd
  exact ⟨e, by rw [windowFilter, he]⟩

/-- Witness for C4 (amended): the sample sequence with a null-dated record
makes the window filter throw. -/
theorem claim_C4_null_date_throws_witness :
    ∃ e, windowFilter 2022 2025 [cexValidRec, cexNullRec] = .error e :=
  claim_C4_null_date_throws 2022 2025 [cexValidRec, cexNullRec]
    ⟨cexNullRec, by simp, rfl⟩

/-! ## Converter lemmas (C5, C6, C7) -/

/-- Claim-side per-row contract of C5: guarded fields degrade to null (empty
string for Type) on a falsy cell, and a truthy date cell is handed to the
host date parser. -/
def rowSpec (idx : RoleIdx) (dateParse : String → JSDate) (row : List Cell) (er : ERecord) : Prop :=
  (truthy (rowGet row idx.type) = false → er.Type' = "") ∧
  (truthy (rowGet row idx.descr) = false → er.Description = none) ∧
  (truthy (rowGet row idx.date) = false → er.Date = none) ∧
  (truthy (rowGet row idx.date) = true →
    er.Date = some (dateParse (cellStr (rowGet row idx.date)))) ∧
  (truthy (rowGet row idx.link) = false → er.DocumentLink = none) ∧
  (truthy (rowGet row idx.header) = false → er.HeaderImage = none) ∧
  (truthy (rowGet row idx.footer) = false → er.FooterImage = none)

theorem convertRow_ok (idx : RoleIdx) (dateParse : String → JSDate) (i : Nat)
    (row : List Cell) (h : ∃ s, rowGet row idx.company = some (Cell.str s)) :
    ∃ er, convertRow idx dateParse i row = .ok er ∧ rowSpec idx dateParse row er := by
  obtain ⟨s, hs⟩ := h
  have hc : cellToString (rowGet row idx.company) = .ok s := by rw [hs]; rfl
  refine ⟨{ Company := s,
            Type' := if truthy (rowGet row idx.type) then cellStr (rowGet row idx.type) else "",
            Description := if truthy (rowGet row idx.descr) then some (cellStr (rowGet row idx.descr)) else none,
            Date := if truthy (rowGet row idx.date) then some (dateParse (cellStr (rowGet row idx.date))) else none,
            DocumentLink := if truthy (rowGet row idx.link) then some (cellStr (rowGet row idx.link)) else none,
            HeaderImage := if truthy (rowGet row idx.header) then some (cellStr (rowGet row idx.header)) else none,
            FooterImage := if truthy (rowGet row idx.footer) then some (cellStr (rowGet row idx.footer)) else none,
            selectionId := i }, ?_, ?_⟩
  · simp only [convertRow, hc]
  · refine ⟨?_, ?_, ?_, ?_, ?_, ?_, ?_⟩ <;> intro hf <;> simp [hf]

theorem convRows_total (idx : RoleIdx) (dateParse : String → JSDate)
    (rows : List (List Cell)) :
    ∀ i, (∀ row ∈ rows, ∃ s, rowGet row idx.company = some (Cell.str s)) →
      ∃ l, convRows idx dateParse i rows = .ok l ∧ l.length = rows.length ∧
        ∀ k, k < rows.length →
          rowSpec idx dateParse (rows.getD k []) (l.getD k dfltRec) := by
  induction rows with
  | nil =>
    intro i _
    exact ⟨[], rfl, rfl, fun k hk => absurd hk (Nat.not_lt_zero k)⟩
  | cons row rest ih =>
    intro i h
    obtain ⟨er, her, hspec⟩ := convertRow_ok idx dateParse i row (h row (by simp))
    obtain ⟨l, hl, hlen, hks⟩ := ih (i + 1) (fun r hr => h r (by simp [hr]))
    refine ⟨er :: l, ?_, ?_, ?_⟩
    · simp [convRows, her, hl]
    · simp [hlen]
    · intro k hk
      cases k with
      | zero => simpa using hspec
      | succ k' =>
        have := hks k' (by simpa using hk)
        simpa using this

/-- C5 counterexample: with no Company role bound (and a perfectly ordinary
row), the converter throws — `row[-1].toString()` reads `toString` of
`undefined` — so the row converter does not "never raise". -/
theorem claim_C5_counterexample :
    CONVERTER [["Date"]] [[Cell.str "2020-01-01"]] (fun _ => JSDate.invalid) =
      .error "TypeError: Cannot read properties of undefined (reading toString)" := rfl

/-- C5 (amended): provided every row's Company slot holds a (possibly
empty) string — Company is the one field read without a truthiness guard,
so a missing Company column or a null Company cell throws — the converter
raises nothing: it emits one record per row in input order, fields whose
role column is absent or whose cell is null/undefined/empty become null
(the empty string for Type), and a truthy date cell is parsed by the host
parser, an unparseable one yielding an Invalid Date object (not null). -/
theorem claim_C5_converter_total (cols : List (List String)) (rows : List (List Cell))
    (dateParse : String → JSDate)
    (hc : ∀ row ∈ rows, ∃ s, rowGet row (scanRoles cols).company = some (Cell.str s)) :
    ∃ l, CONVERTER cols rows dateParse = .ok l ∧ l.length = rows.length ∧
      ∀ k, k < rows.length →
        rowSpec (scanRoles cols) dateParse (rows.getD k []) (l.getD k dfltRec) :=
  convRows_total (scanRoles cols) dateParse rows 0 hc

/-- Branch guard of the `Company` arm of the role-scan chain (the first
arm, so only its own role test). -/
def selCompany (c : List String) : Bool := hasRole c "Company"

/-- Branch guard of the `Type` arm: its role present and no earlier arm taken. -/
def selType (c : List String) : Bool := !hasRole c "Company" && hasRole c "Type"

/-- Branch guard of the `Description` arm. -/
def selDescription (c : List String) : Bool :=
  !hasRole c "Company" && !hasRole c "Type" && hasRole c "Description"

/-- Branch guard of the `Date` arm. -/
def selDate (c : List String) : Bool :=
  !hasRole c "Company" && !hasRole c "Type" && !hasRole c "Description" && hasRole c "Date"

/-- Branch guard of the `DocumentLink` arm. -/
def selLink (c : List String) : Bool :=
  !hasRole c "Company" && !hasRole c "Type" && !hasRole c "Description" &&
    !hasRole c "Date" && hasRole c "DocumentLink"

/-- Branch guard of the `HeaderImage` arm. -/
def selHeaderImage (c : List String) : Bool :=
  !hasRole c "Company" && !hasRole c "Type" && !hasRole c "Description" &&
    !hasRole c "Date" && !hasRole c "DocumentLink" && hasRole c "HeaderImage"

/-- Branch guard of the `FooterImage` arm (the last one). -/
def selFooterImage (c : List String) : Bool :=
  !hasRole c "Company" && !hasRole c "Type" && !hasRole c "Description" &&
    !hasRole c "Date" && !hasRole c "DocumentLink" && !hasRole c "HeaderImage" &&
    hasRole c "FooterImage"

/-- Claim-side accumulator of C6: the index of the last column (scanning
left to right from position `i`, accumulator `acc`) whose guard `p` holds. -/
def lastSelIdxFrom (p : List String → Bool) : Nat → List (List String) → Int → Int
  | _, [], acc => acc
  | i, c :: rest, acc => lastSelIdxFrom p (i + 1) rest (if p c then (i : Int) else acc)

/-- Index of the last column selecting guard `p`, `-1` when none does. -/
def lastSelIdx (p : List String → Bool) (cols : List (List String)) : Int :=
  lastSelIdxFrom p 0 cols (-1)

theorem applyColumn_company (i : Nat) (c : List String) (acc : RoleIdx) :
    (applyColumn i c acc).company = if selCompany c then (i : Int) else acc.company := by
  simp only [applyColumn, selCompany]
  split_ifs <;> simp_all

theorem applyColumn_type (i : Nat) (c : List String) (acc : RoleIdx) :
    (applyColumn i c acc).type = if selType c then (i : Int) else acc.type := by
  simp only [applyColumn, selType]
  split_ifs <;> simp_all

theorem applyColumn_descr (i : Nat) (c : List String) (acc : RoleIdx) :
    (applyColumn i c acc).descr = if selDescription c then (i : Int) else acc.descr := by
  simp only [applyColumn, selDescription]
  split_ifs <;> simp_all

theorem applyColumn_date (i : Nat) (c : List String) (acc : RoleIdx) :
    (applyColumn i c acc).date = if selDate c then (i : Int) else acc.date := by
  simp only [applyColumn, selDate]
  split_ifs <;> simp_all

theorem applyColumn_link (i : Nat) (c : List String) (acc : RoleIdx) :
    (applyColumn i c acc).link = if selLink c then (i : Int) else acc.link := by
  simp only [applyColumn, selLink]
  split_ifs <;> simp_all

theorem applyColumn_header (i : Nat) (c : List String) (acc : RoleIdx) :
    (applyColumn i c acc).header = if selHeaderImage c then (i : Int) else acc.header := by
  simp only [applyColumn, selHeaderImage]
  split_ifs <;> simp_all

theorem applyColumn_footer (i : Nat) (c : List String) (acc : RoleIdx) :
    (applyColumn i c acc).footer = if selFooterImage c then (i : Int) else acc.footer := by
  simp only [applyColumn, selFooterImage]
  split_ifs <;> simp_all

theorem scanRolesFrom_eq (cols : List (List String)) :
    ∀ (i : Nat) (acc : RoleIdx),
      scanRolesFrom i cols acc =
        ⟨lastSelIdxFrom selCompany i cols acc.company,
         lastSelIdxFrom selType i cols acc.type,
         lastSelIdxFrom selDescription i cols acc.descr,
         lastSelIdxFrom selDate i cols acc.date,
         lastSelIdxFrom selLink i cols acc.link,
         lastSelIdxFrom selHeaderImage i cols acc.header,
         lastSelIdxFrom selFooterImage i cols acc.footer⟩ := by
  induction cols with
  | nil => intro i acc; rfl
  | cons c rest ih =>
    intro i acc
    simp only [scanRolesFrom, lastSelIdxFrom]
    rw [ih (i + 1) (applyColumn i c acc)]
    rw [applyColumn_company, applyColumn_type, applyColumn_descr, applyColumn_date,
      applyColumn_link, applyColumn_header, applyColumn_footer]

theorem lastSelIdxFrom_stable (p : List String → Bool) (cols : List (List String)) :
    ∀ (i : Nat) (acc : Int),
      lastSelIdxFrom p i cols acc = acc ∨ (i : Int) ≤ lastSelIdxFrom p i cols acc := by
  induction cols with
  | nil => intro i acc; exact Or.inl rfl
  | cons c rest ih =>
    intro i acc
    simp only [lastSelIdxFrom]
    rcases ih (i + 1) (if p c then (i : Int) else acc) with h | h
    · rw [h]
      split_ifs with hp
      · right; simp
      · left; rfl
    · right
      omega

theorem lastSelIdxFrom_ge (p : List String → Bool) (cols : List (List String)) :
    ∀ (i : Nat) (acc : Int) (j : Nat), j < cols.length → p (cols.getD j []) = true →
      (i + j : Int) ≤ lastSelIdxFrom p i cols acc := by
  induction cols with
  | nil => intro i acc j hj _; exact absurd hj (Nat.not_lt_zero j)
  | cons c rest ih =>
    intro i acc j hj hp
    simp only [lastSelIdxFrom]
    cases j with
    | zero =>
      simp only [List.getD_cons_zero] at hp
      have hacc : (if p c then (i : Int) else acc) = (i : Int) := by simp [hp]
      rw [hacc]
      rcases lastSelIdxFrom_stable p rest (i + 1) (i : Int) with h | h
      · rw [h]; simp
      · push_cast
        omega
    | succ j' =>
      simp only [List.getD_cons_succ] at hp
      simp only [List.length_cons] at hj
      have := ih (i + 1) (if p c then (i : Int) else acc) j' (by omega) hp
      push_cast at this ⊢
      omega

theorem lastSelIdxFrom_mem (p : List String → Bool) (cols : List (List String)) :
    ∀ (i : Nat) (acc : Int),
      lastSelIdxFrom p i cols acc = acc ∨
        ∃ j, j < cols.length ∧ p (cols.getD j []) = true ∧
          lastSelIdxFrom p i cols acc = ((i : Int) + j) := by
  induction cols with
  | nil => intro i acc; exact Or.inl rfl
  | cons c rest ih =>
    intro i acc
    simp only [lastSelIdxFrom]
    rcases ih (i + 1) (if p c then (i : Int) else acc) with h | ⟨j', hj', hp', hv'⟩
    · rw [h]
      split_ifs with hp
      · right
        exact ⟨0, by simp, by simpa using hp, by simp⟩
      · exact Or.inl rfl
    · right
      refine ⟨j' + 1, by simpa using Nat.succ_lt_succ hj', by simpa using hp', ?_⟩
      rw [hv']
      push_cast
      ring

/-- C6: when several columns carry the same recognized role, the converter's
role scan records, for each role, the index of the last column whose branch
of the mutually exclusive `if`/`else if` chain was selected — each resolved
index equals the last selected column index (`-1` when no column selects the
branch), that index is at least every selected column's index (so the last
match wins, never the first of several), and it is itself a selected column
or `-1`. -/
theorem claim_C6_duplicate_roles_last_wins (cols : List (List String)) :
    (scanRoles cols).company = lastSelIdx selCompany cols ∧
    (scanRoles cols).type = lastSelIdx selType cols ∧
    (scanRoles cols).descr = lastSelIdx selDescription cols ∧
    (scanRoles cols).date = lastSelIdx selDate cols ∧
    (scanRoles cols).link = lastSelIdx selLink cols ∧
    (scanRoles cols).header = lastSelIdx selHeaderImage cols ∧
    (scanRoles cols).footer = lastSelIdx selFooterImage cols ∧
    (∀ p : List String → Bool, ∀ j, j < cols.length → p (cols.getD j []) = true →
      (j : Int) ≤ lastSelIdx p cols) ∧
    (∀ p : List String → Bool, lastSelIdx p cols = -1 ∨
      ∃ j, j < cols.length ∧ p (cols.getD j []) = true ∧ lastSelIdx p cols = (j : Int)) := by
  have h := scanRolesFrom_eq cols 0 noRoles
  refine ⟨?_, ?_, ?_, ?_, ?_, ?_, ?_, ?_, ?_⟩
  · rw [scanRoles, h]; rfl
  · rw [scanRoles, h]; rfl
  · rw [scanRoles, h]; rfl
  · rw [scanRoles, h]; rfl
  · rw [scanRoles, h]; rfl
  · rw [scanRoles, h]; rfl
  · rw [scanRoles, h]; rfl
  · intro p j hj hp
    have := lastSelIdxFrom_ge p cols 0 (-1) j hj hp
    simpa using this
  · intro p
    rcases lastSelIdxFrom_mem p cols 0 (-1) with h' | ⟨j, hj, hp, hv⟩
    · exact Or.inl h'
    · exact Or.inr ⟨j, hj, hp, by simpa using hv⟩

/-- Witness for C5 (amended): a data view with Company, Type and Date roles
and one row whose Type cell is null and whose date is unparseable converts
without raising. -/
theorem claim_C5_converter_total_witness :
    ∃ l, CONVERTER [["Company"], ["Type"], ["Date"]]
        [[Cell.str "Acme", Cell.null, Cell.str "junkdate"]] (fun _ => JSDate.invalid) = .ok l ∧
      l.length = 1 ∧
      ∀ k, k < 1 →
        rowSpec (scanRoles [["Company"], ["Type"], ["Date"]]) (fun _ => JSDate.invalid)
          ([[Cell.str "Acme", Cell.null, Cell.str "junkdate"]].getD k [])
          (l.getD k dfltRec) := by
  have h := claim_C5_converter_total [["Company"], ["Type"], ["Date"]]
    [[Cell.str "Acme", Cell.null, Cell.str "junkdate"]] (fun _ => JSDate.invalid)
    (by intro row hrow; rw [List.mem_singleton] at hrow; exact ⟨"Acme", by rw [hrow]; rfl⟩)
  simpa using h

theorem convRows_take (idx : RoleIdx) (dateParse : String → JSDate)
    (rows : List (List Cell)) :
    ∀ (i : Nat) (l : List ERecord) (n : Nat),
      convRows idx dateParse i rows = .ok l →
      convRows idx dateParse i (rows.take n) = .ok (l.take n) := by
  induction rows with
  | nil =>
    intro i l n h
    simp only [convRows] at h
    cases h
    simp [convRows]
  | cons row rest ih =>
    intro i l n h
    cases n with
    | zero => simp [convRows]
    | succ n' =>
      cases her : convertRow idx dateParse i row with
      | error e => simp [convRows, her] at h
      | ok er =>
        cases hrest : convRows idx dateParse (i + 1) rest with
        | error e => simp [convRows, her, hrest] at h
        | ok ers =>
          have hl : l = er :: ers := by
            simp [convRows, her, hrest] at h
            exact h.symm
          subst hl
          simp [convRows, List.take_succ_cons, her, ih (i + 1) ers n' hrest]

/-- Sample data for the C7 counterexample: 100 ordinary rows followed by a
row whose Company cell is null. -/
def cexRows7 : List (List Cell) := List.replicate 100 [Cell.str "a"] ++ [[Cell.null]]

/-- C7 counterexample: with 101 input rows the rows past index 99 can still
affect the rendered output — a malformed row there makes the whole
conversion (which runs before the `slice(0, 100)` cap) throw, so the capped
pipeline differs from the one fed only rows 0..99. -/
theorem claim_C7_counterexample :
    cappedRecords [["Company"]] cexRows7 (fun _ => JSDate.invalid) ≠
      cappedRecords [["Company"]] (cexRows7.take 100) (fun _ => JSDate.invalid) := by
  intro h
  exact absurd (congrArg Except.isOk h) (by decide)

/-- C7 (amended): whenever the conversion itself succeeds, at most the first
100 converted records reach the window filter and layout: the capped
sequence equals the first 100 records, coincides with the capped conversion
of only the first 100 rows (so later rows never affect it), and has length
at most 100.  Rows past index 99 can only affect the output by making the
conversion throw before the cap is applied. -/
theorem claim_C7_cap_first_100 (cols : List (List String)) (rows : List (List Cell))
    (dateParse : String → JSDate) (l : List ERecord)
    (h : CONVERTER cols rows dateParse = .ok l) :
    cappedRecords cols rows dateParse = .ok (l.take 100) ∧
    cappedRecords cols (rows.take 100) dateParse = .ok (l.take 100) ∧
    (l.take 100).length ≤ 100 := by
  refine ⟨?_, ?_, ?_⟩
  · simp [cappedRecords, h, Except.map]
  · have ht := convRows_take (scanRoles cols) dateParse rows 0 l 100 h
    simp [cappedRecords, CONVERTER, ht, Except.map, List.take_take]
  · simp [List.length_take]

/-- Converted record of the single-cell row used in the C7 witness. -/
def wrec7 : ERecord := { dfltRec with Company := "a" }

/-- Witness for C7 (amended): one well-formed row converts, is kept whole by
the cap, and agrees with the capped conversion of its own first 100 rows. -/
theorem claim_C7_cap_first_100_witness :
    cappedRecords [["Company"]] [[Cell.str "a"]] (fun _ => JSDate.invalid) = .ok ([wrec7].take 100) ∧
    cappedRecords [["Company"]] (([[Cell.str "a"]] : List (List Cell)).take 100)
      (fun _ => JSDate.invalid) = .ok ([wrec7].take 100) ∧
    ([wrec7].take 100).length ≤ 100 :=
  claim_C7_cap_first_100 [["Company"]] [[Cell.str "a"]] (fun _ => JSDate.invalid) [wrec7] rfl

/-! ## Header/footer and tooltip claims (C10, C9) -/

/-- C10: with an empty converted sequence and layout set to header or
footer, `renderHeaderAndFooter` reads the image field of the destructured —
hence `undefined` — first record and the update cycle fails there rather
than rendering an empty state; with non-empty data the image is determined
solely by the first record, and the `src` is that record's image value
exactly when it is a valid data URI and the empty string otherwise. -/
theorem claim_C10_header_footer (layout : String) (validD : String → Bool)
    (t : ERecord) (rest rest2 : List ERecord) :
    ((jsToLower layout = "header" ∨ jsToLower layout = "footer") →
      ∃ e, renderHeaderAndFooter layout validD [] = .error e) ∧
    renderHeaderAndFooter layout validD (t :: rest) =
      renderHeaderAndFooter layout validD (t :: rest2) ∧
    (jsToLower layout = "header" →
      renderHeaderAndFooter layout validD (t :: rest) = .ok (some (imgSrc validD t.HeaderImage))) ∧
    (jsToLower layout = "footer" → jsToLower layout ≠ "header" →
      renderHeaderAndFooter layout validD (t :: rest) = .ok (some (imgSrc validD t.FooterImage))) ∧
    (∀ s, t.HeaderImage = some s → validD s = true → imgSrc validD t.HeaderImage = s) ∧
    (∀ s, t.HeaderImage = some s → validD s = false → imgSrc validD t.HeaderImage = "") ∧
    (t.HeaderImage = none → imgSrc validD t.HeaderImage = "") := by
  refine ⟨?_, ?_, ?_, ?_, ?_, ?_, ?_⟩
  · rintro (hl | hl)
    · exact ⟨"TypeError: Cannot read properties of undefined (reading HeaderImage)",
        by simp [renderHeaderAndFooter, hl]⟩
    · exact ⟨"TypeError: Cannot read properties of undefined (reading FooterImage)",
        by simp [renderHeaderAndFooter, hl]⟩
  · by_cases h1 : jsToLower layout = "header"
    · simp [renderHeaderAndFooter, h1]
    · by_cases h2 : jsToLower layout = "footer" <;> simp [renderHeaderAndFooter, h1, h2]
  · intro hl; simp [renderHeaderAndFooter, hl]
  · intro hl hne; simp [renderHeaderAndFooter, hl, hne]
  · intro s hs hv; simp [imgSrc, hs, hv]
  · intro s hs hv; simp [imgSrc, hs, hv]
  · intro hs; simp [imgSrc, hs]

deriving instance DecidableEq for Except

/-- The Clinical Trials record whose tooltip shows the coerced description. -/
def ctRec : ERecord :=
  ⟨"Acme", "Clinical Trials", some "Phase III readout", some (.valid 2023 4 10), none, none, none, 0⟩

/-- A Regulatory record with the same fields. -/
def regRec : ERecord := { ctRec with Type' := "Regulatory" }

/-- C9 (code bug): with the sanitizer behaving as the identity on these
plain strings, the Regulatory tooltip shows the date, company and sanitized
description — but the Clinical Trials branch, whose stray second `+` in
`'<div>' + + sanitizeHtml(d.Description) + '</div>'` numerically coerces
the sanitized text, renders the literal `NaN` instead of the description. -/
theorem claim_C9_clinical_tooltip_nan :
    tooltipHtml (fun os => match os with | some s => s | none => "") regRec =
      .ok "<div>5/10/2023</div><div>Acme</div><div>Phase III readout</div>" ∧
    tooltipHtml (fun os => match os with | some s => s | none => "") ctRec =
      .ok "<div>5/10/2023</div><div>Acme</div><div>NaN</div>" := by
  exact ⟨by decide, by decide⟩

/-! ## Tick-granularity lemmas (C8) -/

theorem jan1Days_le (y1 y2 : Nat) (h : y1 ≤ y2) : jan1Days y1 ≤ jan1Days y2 := by
  unfold jan1Days leapsBefore
  omega

theorem jan1Days_diff_bounds (y1 y2 : Nat) (h : y1 ≤ y2) :
    365 * (y2 - y1) ≤ jan1Days y2 - jan1Days y1 ∧
    jan1Days y2 - jan1Days y1 ≤ 366 * (y2 - y1) := by
  unfold jan1Days leapsBefore
  omega

theorem jan1Days_succ (y : Nat) :
    jan1Days (y + 1) = jan1Days y + 365 ∨ jan1Days (y + 1) = jan1Days y + 366 := by
  unfold jan1Days leapsBefore
  omega

theorem getTimeValid_jan1 (y : Nat) : getTimeValid y 0 1 = ((jan1Days y : Int) - 719528) * 86400000 := by
  have hm : monthOffset (isLeapN y) 0 = 0 := rfl
  simp [getTimeValid, civilDays, epochDays, hm]

theorem rat_round_arg (D : ℤ) :
    ((((-D * 86400000 : ℚ)) / 1000) / (60 * 60 * 24) / (365.25 : ℚ) + 1 / 2) =
      ((1461 - 8 * D : ℤ) : ℚ) / ((2922 : ℕ) : ℚ) := by
  have h : (365.25 : ℚ) = 1461 / 4 := by norm_num
  rw [h]
  push_cast
  field_simp
  ring

theorem rat_abs_arg (D : ℤ) (hD : 0 ≤ D) :
    (|(D * 86400000 : ℚ)| / 86400000 / (365.25 : ℚ) + 1 / 2) =
      ((8 * D + 1461 : ℤ) : ℚ) / ((2922 : ℕ) : ℚ) := by
  have h : (365.25 : ℚ) = 1461 / 4 := by norm_num
  have habs : |(D * 86400000 : ℚ)| = D * 86400000 := by
    apply abs_of_nonneg
    positivity
  rw [h, habs]
  push_cast
  field_simp
  ring

theorem diff_years_jan1 (y1 y2 : Nat) (h : y1 ≤ y2) :
    diff_years (getTimeValid y1 0 1) (getTimeValid y2 0 1) =
      (8 * ((jan1Days y2 : Int) - (jan1Days y1 : Int)) + 1461) / 2922 := by
  set D : ℤ := (jan1Days y2 : Int) - (jan1Days y1 : Int) with hDdef
  have hD : 0 ≤ D := by
    have := jan1Days_le y1 y2 h
    omega
  have ht1 := getTimeValid_jan1 y1
  have ht2 := getTimeValid_jan1 y2
  have harg : ((getTimeValid y1 0 1 : ℚ) - (getTimeValid y2 0 1 : ℚ)) = (-D * 86400000 : ℚ) := by
    rw [ht1, ht2, hDdef]
    push_cast
    ring
  rw [diff_years, jsRound, harg, rat_round_arg D, Rat.floor_intCast_div_natCast]
  simp only [Nat.cast_ofNat]
  rcases abs_cases ((1461 - 8 * D) / (2922 : ℤ)) with ⟨he, hsign⟩ | ⟨he, hsign⟩ <;> rw [he] <;> omega

theorem claimed_round_jan1 (y1 y2 : Nat) (h : y1 ≤ y2) :
    jsRound (|(getTimeValid y2 0 1 : ℚ) - (getTimeValid y1 0 1 : ℚ)| / 86400000 / (365.25 : ℚ)) =
      (8 * ((jan1Days y2 : Int) - (jan1Days y1 : Int)) + 1461) / 2922 := by
  set D : ℤ := (jan1Days y2 : Int) - (jan1Days y1 : Int) with hDdef
  have hD : 0 ≤ D := by
    have := jan1Days_le y1 y2 h
    omega
  have ht1 := getTimeValid_jan1 y1
  have ht2 := getTimeValid_jan1 y2
  have harg : ((getTimeValid y2 0 1 : ℚ) - (getTimeValid y1 0 1 : ℚ)) = (D * 86400000 : ℚ) := by
    rw [ht1, ht2, hDdef]
    push_cast
    ring
  rw [jsRound, harg, rat_abs_arg D hD, Rat.floor_intCast_div_natCast]
  norm_num

theorem useMonthlyTicks_jan1 (y1 y2 : Nat) :
    useMonthlyTicks (.valid (y1 : Int) 0 1) (.valid (y2 : Int) 0 1) = true ↔
      diff_years (getTimeValid y1 0 1) (getTimeValid y2 0 1) ≤ 1 := by
  simp [useMonthlyTicks, JSDate.getTimeN, Int.toNat_natCast]

/-- C8: for a resolved axis domain of Jan 1 dates, monthly ticks are chosen
iff the rounded absolute year difference — round(|maxDate − minDate| in days
divided by 365.25) — is at most 1, and yearly ticks otherwise; in
particular a span of exactly one calendar year selects monthly ticks and a
span of two or more calendar years selects yearly ticks. -/
theorem claim_C8_tick_granularity (y1 y2 : Nat) (h : y1 ≤ y2) :
    (useMonthlyTicks (.valid (y1 : Int) 0 1) (.valid (y2 : Int) 0 1) = true ↔
      jsRound (|(getTimeValid y2 0 1 : ℚ) - (getTimeValid y1 0 1 : ℚ)| / 86400000 / (365.25 : ℚ)) ≤ 1) ∧
    (y2 = y1 + 1 → useMonthlyTicks (.valid (y1 : Int) 0 1) (.valid (y2 : Int) 0 1) = true) ∧
    (y1 + 2 ≤ y2 → useMonthlyTicks (.valid (y1 : Int) 0 1) (.valid (y2 : Int) 0 1) = false) := by
  have hd := diff_years_jan1 y1 y2 h
  have hc := claimed_round_jan1 y1 y2 h
  have hu := useMonthlyTicks_jan1 y1 y2
  refine ⟨?_, ?_, ?_⟩
  · rw [hu, hd, hc]
  · intro h1
    rw [hu, hd]
    subst h1
    rcases jan1Days_succ y1 with hs | hs <;> rw [hs] <;> push_cast <;> omega
  · intro h2
    have hb := (jan1Days_diff_bounds y1 y2 h).1
    rw [Bool.eq_false_iff]
    intro hmt
    rw [hu, hd] at hmt
    have hage : 730 ≤ jan1Days y2 - jan1Days y1 := by omega
    have hle := jan1Days_le y1 y2 h
    omega

/-- Witness for C8: the domain Jan 1 2020 .. Jan 1 2023 selects yearly
ticks, agreeing with the claim's rounding formula. -/
theorem claim_C8_tick_granularity_witness :
    (useMonthlyTicks (.valid ((2020 : Nat) : Int) 0 1) (.valid ((2023 : Nat) : Int) 0 1) = true ↔
      jsRound (|(getTimeValid 2023 0 1 : ℚ) - (getTimeValid 2020 0 1 : ℚ)| / 86400000 / (365.25 : ℚ)) ≤ 1) ∧
    ((2023 : Nat) = 2020 + 1 → useMonthlyTicks (.valid ((2020 : Nat) : Int) 0 1) (.valid ((2023 : Nat) : Int) 0 1) = true) ∧
    ((2020 : Nat) + 2 ≤ 2023 → useMonthlyTicks (.valid ((2020 : Nat) : Int) 0 1) (.valid ((2023 : Nat) : Int) 0 1) = false) :=
  claim_C8_tick_granularity 2020 2023 (by omega)

/-! ## Fallback-domain lemmas (C3) -/

/-- Year of a record's date (0 for null or invalid dates; only used under
validity hypotheses). -/
def recYearOf (r : ERecord) : Int :=
  match r.Date with
  | some (.valid y _ _) => y
  | _ => 0

/-- Time of a record's date (0 for null or invalid dates; only used under
validity hypotheses). -/
def recTimeOf (r : ERecord) : Int :=
  match r.Date with
  | some (.valid y m d) => getTimeValid y.toNat m d
  | _ => 0

theorem monthOffset_le (leap : Bool) (m : Nat) :
    monthOffset leap m ≤ 334 + (if leap then 1 else 0) := by
  cases leap <;> unfold monthOffset <;>
    rcases m with _|_|_|_|_|_|_|_|_|_|_|m <;> simp

theorem jan1Days_succ_leap (y : Nat) :
    jan1Days (y + 1) = jan1Days y + 365 + (if isLeapN y then 1 else 0) := by
  have hiff : isLeapN y = true ↔ ((y % 4 = 0 ∧ y % 100 ≠ 0) ∨ y % 400 = 0) := by
    simp [isLeapN]
  by_cases hL : isLeapN y = true
  · rw [if_pos hL]
    have := hiff.mp hL
    unfold jan1Days leapsBefore
    omega
  · rw [if_neg hL]
    have : ¬((y % 4 = 0 ∧ y % 100 ≠ 0) ∨ y % 400 = 0) := fun hc => hL (hiff.mpr hc)
    unfold jan1Days leapsBefore
    omega

theorem getTimeValid_year_lt (y1 m1 d1 y2 m2 d2 : Nat)
    (hy : y1 < y2) (hm1 : m1 < 12) (hd1 : d1 ≤ 31) (hd2 : 1 ≤ d2) :
    getTimeValid y1 m1 d1 < getTimeValid y2 m2 d2 := by
  have h1 := monthOffset_le (isLeapN y1) m1
  have h2 := jan1Days_succ_leap y1
  have h3 := jan1Days_le (y1 + 1) y2 hy
  have h4 : civilDays y1 m1 d1 < civilDays y2 m2 d2 := by
    have h5 : (0 : Nat) ≤ monthOffset (isLeapN y2) m2 := Nat.zero_le _
    cases hL : isLeapN y1 with
    | false =>
      unfold civilDays
      rw [hL] at h1 h2 ⊢
      simp at h1 h2
      push_cast
      omega
    | true =>
      unfold civilDays
      rw [hL] at h1 h2 ⊢
      simp at h1 h2
      push_cast
      omega
  unfold getTimeValid
  have h6 : civilDays y1 m1 d1 - epochDays < civilDays y2 m2 d2 - epochDays := by omega
  exact mul_lt_mul_of_pos_right h6 (by norm_num)

theorem year_le_of_time_le (y1 m1 d1 y2 m2 d2 : Nat)
    (hm2 : m2 < 12) (hd2 : d2 ≤ 31) (hd1 : 1 ≤ d1)
    (ht : getTimeValid y1 m1 d1 ≤ getTimeValid y2 m2 d2) : y1 ≤ y2 := by
  by_contra hlt
  push_neg at hlt
  exact absurd (getTimeValid_year_lt y2 m2 d2 y1 m1 d1 hlt hm2 hd2 hd1) (not_lt.mpr ht)

theorem foldl_min_facts (ts : List Int) :
    ∀ t : Int, (ts.foldl min t = t ∨ ts.foldl min t ∈ ts) ∧
      ts.foldl min t ≤ t ∧ ∀ x ∈ ts, ts.foldl min t ≤ x := by
  induction ts with
  | nil => intro t; exact ⟨Or.inl rfl, le_refl t, fun x hx => absurd hx (List.not_mem_nil x)⟩
  | cons a as ih =>
    intro t
    obtain ⟨hmem, hle, hall⟩ := ih (min t a)
    refine ⟨?_, ?_, ?_⟩
    · rcases hmem with h | h
      · rw [List.foldl_cons, h]
        rcases min_choice t a with h' | h'
        · exact Or.inl h'
        · exact Or.inr (by rw [h']; exact List.mem_cons_self a as)
      · exact Or.inr (List.mem_cons_of_mem a h)
    · calc (a :: as).foldl min t = as.foldl min (min t a) := List.foldl_cons ..
        _ ≤ min t a := hle
        _ ≤ t := min_le_left t a
    · intro x hx
      rcases List.mem_cons.mp hx with h | h
      · rw [h]
        calc (a :: as).foldl min t = as.foldl min (min t a) := List.foldl_cons ..
          _ ≤ min t a := hle
          _ ≤ a := min_le_right t a
      · exact hall x h

theorem foldl_max_facts (ts : List Int) :
    ∀ t : Int, (ts.foldl max t = t ∨ ts.foldl max t ∈ ts) ∧
      t ≤ ts.foldl max t ∧ ∀ x ∈ ts, x ≤ ts.foldl max t := by
  induction ts with
  | nil => intro t; exact ⟨Or.inl rfl, le_refl t, fun x hx => absurd hx (List.not_mem_nil x)⟩
  | cons a as ih =>
    intro t
    obtain ⟨hmem, hle, hall⟩ := ih (max t a)
    refine ⟨?_, ?_, ?_⟩
    · rcases hmem with h | h
      · rw [List.foldl_cons, h]
        rcases max_choice t a with h' | h'
        · exact Or.inl h'
        · exact Or.inr (by rw [h']; exact List.mem_cons_self a as)
      · exact Or.inr (List.mem_cons_of_mem a h)
    · calc t ≤ max t a := le_max_left t a
        _ ≤ as.foldl max (max t a) := hle
        _ = (a :: as).foldl max t := (List.foldl_cons ..).symm
    · intro x hx
      rcases List.mem_cons.mp hx with h | h
      · rw [h]
        calc a ≤ max t a := le_max_right t a
          _ ≤ as.foldl max (max t a) := hle
          _ = (a :: as).foldl max t := (List.foldl_cons ..).symm
      · exact hall x h

theorem recTimes_eq (l : List ERecord)
    (h : ∀ r ∈ l, ∃ y m d, r.Date = some (.valid y m d)) :
    recTimes l = some (l.map recTimeOf) := by
  induction l with
  | nil => rfl
  | cons r rest ih =>
    obtain ⟨y, m, d, hd⟩ := h r (List.mem_cons_self r rest)
    have ih' := ih (fun x hx => h x (List.mem_cons_of_mem _ hx))
    simp [recTimes, dateTimeNum, hd, ih', recTimeOf]

theorem findSome?_time_spec (m : Int) (l : List ERecord)
    (hval : ∀ r ∈ l, ∃ y mo d, r.Date = some (.valid y mo d))
    (hex : ∃ r ∈ l, recTimeOf r = m) :
    ∃ y mo d, l.findSome? (fun r =>
        match r.Date with
        | some (.valid y mo d) =>
          if getTimeValid y.toNat mo d = m then some (JSDate.valid y mo d) else none
        | _ => none) = some (.valid y mo d) ∧
      (∃ r ∈ l, r.Date = some (.valid y mo d)) ∧ getTimeValid y.toNat mo d = m := by
  induction l with
  | nil => obtain ⟨r, hr, _⟩ := hex; exact absurd hr (List.not_mem_nil r)
  | cons r0 rest ih =>
    obtain ⟨y0, m0, d0, hd0⟩ := hval r0 (List.mem_cons_self r0 rest)
    by_cases h0 : getTimeValid y0.toNat m0 d0 = m
    · refine ⟨y0, m0, d0, ?_, ⟨r0, List.mem_cons_self r0 rest, hd0⟩, h0⟩
      simp [List.findSome?_cons, hd0, h0]
    · have hex' : ∃ r ∈ rest, recTimeOf r = m := by
        obtain ⟨r, hr, hm⟩ := hex
        rcases List.mem_cons.mp hr with he | he
        · rw [he] at hm
          rw [recTimeOf, hd0] at hm
          exact absurd hm h0
        · exact ⟨r, he, hm⟩
      obtain ⟨y, mo, d, hfind, hmem, htime⟩ :=
        ih (fun x hx => hval x (List.mem_cons_of_mem _ hx)) hex'
      refine ⟨y, mo, d, ?_, ?_, htime⟩
      · simp [List.findSome?_cons, hd0, h0, hfind]
      · obtain ⟨r, hr, hd⟩ := hmem
        exact ⟨r, List.mem_cons_of_mem _ hr, hd⟩

theorem fallbackMinDate_spec (l : List ERecord) (hne : l ≠ [])
    (hval : ∀ r ∈ l, ∃ y m d, r.Date = some (.valid y m d) ∧
      0 ≤ y ∧ m < 12 ∧ 1 ≤ d ∧ d ≤ 31) :
    ∃ y m d, fallbackMinDate l = .valid y m d ∧
      (∃ r ∈ l, r.Date = some (.valid y m d)) ∧
      (∀ r ∈ l, ∀ y' m' d', r.Date = some (.valid y' m' d') → y ≤ y') := by
  have hdates : ∀ r ∈ l, ∃ y m d, r.Date = some (.valid y m d) :=
    fun r hr => by obtain ⟨y, m, d, hd, _⟩ := hval r hr; exact ⟨y, m, d, hd⟩
  obtain ⟨r0, rest, rfl⟩ := List.exists_cons_of_ne_nil hne
  have hrt := recTimes_eq (r0 :: rest) hdates
  rw [List.map_cons] at hrt
  set ts := rest.map recTimeOf with hts
  set t0 := recTimeOf r0 with ht0
  set m := ts.foldl min t0 with hm
  obtain ⟨hmem, hle0, hall⟩ := foldl_min_facts ts t0
  have hmle : ∀ r ∈ r0 :: rest, m ≤ recTimeOf r := by
    intro r hr
    rcases List.mem_cons.mp hr with he | he
    · rw [he]; exact hle0
    · exact hall (recTimeOf r) (by rw [hts]; exact List.mem_map_of_mem recTimeOf he)
  have hex : ∃ r ∈ r0 :: rest, recTimeOf r = m := by
    rcases hmem with h | h
    · exact ⟨r0, List.mem_cons_self r0 rest, by rw [hm, h, ht0]⟩
    · rw [hts] at h
      obtain ⟨r, hr, hrm⟩ := List.mem_map.mp h
      exact ⟨r, List.mem_cons_of_mem _ hr, hrm⟩
  obtain ⟨y, mo, d, hfind, hmemd, htime⟩ := findSome?_time_spec m (r0 :: rest) hdates hex
  refine ⟨y, mo, d, ?_, hmemd, ?_⟩
  · simp only [fallbackMinDate, hrt, ← hm, hfind]
  · intro r hr y' m' d' hd'
    obtain ⟨yv, mv, dv, hdv, hy0v, hmv, hdlv, hduv⟩ := hval r hr
    rw [hd'] at hdv
    injection hdv with hdv'
    injection hdv' with e1 e2 e3
    subst e1; subst e2; subst e3
    have hwf : 0 ≤ y ∧ mo < 12 ∧ 1 ≤ d ∧ d ≤ 31 := by
      obtain ⟨rmin, hrmin, hdrmin⟩ := hmemd
      obtain ⟨yv2, mv2, dv2, hdv2, h2⟩ := hval rmin hrmin
      rw [hdrmin] at hdv2
      injection hdv2 with hx
      injection hx with e1 e2 e3
      subst e1; subst e2; subst e3
      exact h2
    have hml : m ≤ recTimeOf r := hmle r hr
    rw [recTimeOf, hd'] at hml
    rw [← htime] at hml
    have := year_le_of_time_le y.toNat mo d y'.toNat m' d' hmv hduv hwf.2.2.1 hml
    omega

theorem fallbackMaxDate_spec (l : List ERecord) (hne : l ≠ [])

    (hval : ∀ r ∈ l, ∃ y m d, r.Date = some (.valid y m d) ∧
      0 ≤ y ∧ m < 12 ∧ 1 ≤ d ∧ d ≤ 31) :
    ∃ y m d, fallbackMaxDate l = .valid y m d ∧
      (∃ r ∈ l, r.Date = some (.valid y m d)) ∧
      (∀ r ∈ l, ∀ y' m' d', r.Date = some (.valid y' m' d') → y' ≤ y) := by
  have hdates : ∀ r ∈ l, ∃ y m d, r.Date = some (.valid y m d) :=
    fun r hr => by obtain ⟨y, m, d, hd, _⟩ := hval r hr; exact ⟨y, m, d, hd⟩
  obtain ⟨r0, rest, rfl⟩ := List.exists_cons_of_ne_nil hne
  have hrt := recTimes_eq (r0 :: rest) hdates
  rw [List.map_cons] at hrt
  set ts := rest.map recTimeOf with hts
  set t0 := recTimeOf r0 with ht0
  set m := ts.foldl max t0 with hm
  obtain ⟨hmem, hle0, hall⟩ := foldl_max_facts ts t0
  have hmle : ∀ r ∈ r0 :: rest, recTimeOf r ≤ m := by
    intro r hr
    rcases List.mem_cons.mp hr with he | he
    · rw [he]; exact hle0
    · exact hall (recTimeOf r) (by rw [hts]; exact List.mem_map_of_mem recTimeOf he)
  have hex : ∃ r ∈ r0 :: rest, recTimeOf r = m := by
    rcases hmem with h | h
    · exact ⟨r0, List.mem_cons_self r0 rest, by rw [hm, h, ht0]⟩
    · rw [hts] at h
      obtain ⟨r, hr, hrm⟩ := List.mem_map.mp h
      exact ⟨r, List.mem_cons_of_mem _ hr, hrm⟩
  obtain ⟨y, mo, d, hfind, hmemd, htime⟩ := findSome?_time_spec m (r0 :: rest) hdates hex
  refine ⟨y, mo, d, ?_, hmemd, ?_⟩
  · simp only [fallbackMaxDate, hrt, ← hm, hfind]
  · intro r hr y' m' d' hd'
    obtain ⟨yv, mv, dv, hdv, hy0v, hmv, hdlv, hduv⟩ := hval r hr
    rw [hd'] at hdv
    injection hdv with hdv'
    injection hdv' with e1 e2 e3
    subst e1; subst e2; subst e3
    have hwf : 0 ≤ y ∧ mo < 12 ∧ 1 ≤ d ∧ d ≤ 31 := by
      obtain ⟨rmax, hrmax, hdrmax⟩ := hmemd
      obtain ⟨yv2, mv2, dv2, hdv2, h2⟩ := hval rmax hrmax
      rw [hdrmax] at hdv2
      injection hdv2 with hx
      injection hx with e1 e2 e3
      subst e1; subst e2; subst e3
      exact h2
    have hml : recTimeOf r ≤ m := hmle r hr
    rw [recTimeOf, hd'] at hml
    rw [← htime] at hml
    have := year_le_of_time_le y'.toNat m' d' y.toNat mo d hwf.2.1 hwf.2.2.2 hdlv hml
    omega

theorem year_bound_of_mem (l : List ERecord)
    (hval : ∀ r ∈ l, ∃ y m d, r.Date = some (.valid y m d) ∧
      100 ≤ y ∧ m < 12 ∧ 1 ≤ d ∧ d ≤ 31)
    (y : Int) (m d : Nat) (hmem : ∃ r ∈ l, r.Date = some (.valid y m d)) : 100 ≤ y := by
  obtain ⟨r, hr, hd⟩ := hmem
  obtain ⟨y2, m2, d2, hd2, h100, _⟩ := hval r hr
  rw [hd] at hd2
  injection hd2 with hx
  injection hx with e1 e2 e3
  omega

/-- Record dated 0050-01-01, demonstrating the two-digit-year remapping of
the JS `Date(year, 0, 1)` constructor in the fallback domain. -/
def rec50 : ERecord := { dfltRec with Date := some (.valid 50 0 1) }

/-- C3 counterexample: with one record dated year 50 and a 2024 window that
misses it, the fallback runs, but the recomputed domain is
`[Jan 1 1950, Jan 1 1951]`, not `[Jan 1 50, Jan 1 51]` — `new Date(y, 0, 1)`
remaps constructor years 0..99 to 1900 + y, so the claimed "Jan 1 of the
minimum year present in the data" fails for two-digit years. -/
theorem claim_C3_counterexample :
    rec50.Date = some (JSDate.valid 50 0 1) ∧
    updateWindow 2024 0 0 [rec50] =
      .ok ⟨[rec50], JSDate.valid 1950 0 1, JSDate.valid 1951 0 1⟩ ∧
    JSDate.valid (1950 : Int) 0 1 ≠ JSDate.valid (50 : Int) 0 1 := by
  refine ⟨rfl, by decide, by decide⟩

/-- C3 (amended): for a non-empty sequence of records with valid dates
whose years are all at least 100 (the JS `Date(year, 0, 1)` constructor
remaps years 0..99 to 1900 + year) and none of which falls in the
configured window, the active set is the full unwindowed sequence and the
axis domain is exactly `[Jan 1 (minimum year in the data), Jan 1 (maximum
year in the data + 1)]`. -/
theorem claim_C3_fallback_domain (curYear prevYears futYears : Int) (l : List ERecord)
    (hne : l ≠ [])
    (hval : ∀ r ∈ l, ∃ y m d, r.Date = some (.valid y m d) ∧
      100 ≤ y ∧ m < 12 ∧ 1 ≤ d ∧ d ≤ 31)
    (hout : ∀ r ∈ l, ∀ y m d, r.Date = some (.valid y m d) →
      y < jsNewDateYear (curYear - prevYears) ∨ jsNewDateYear (curYear + futYears) < y) :
    ∃ ylo yhi,
      updateWindow curYear prevYears futYears l =
        .ok ⟨l, .valid ylo 0 1, .valid (yhi + 1) 0 1⟩ ∧
      (∀ r ∈ l, ∀ y m d, r.Date = some (.valid y m d) → ylo ≤ y ∧ y ≤ yhi) ∧
      (∃ r ∈ l, ∃ m d, r.Date = some (.valid ylo m d)) ∧
      (∃ r ∈ l, ∃ m d, r.Date = some (.valid yhi m d)) := by
  have hval0 : ∀ r ∈ l, ∃ y m d, r.Date = some (.valid y m d) ∧
      0 ≤ y ∧ m < 12 ∧ 1 ≤ d ∧ d ≤ 31 := by
    intro r hr
    obtain ⟨y, m, d, hd, h100, hm, h1, h31⟩ := hval r hr
    exact ⟨y, m, d, hd, by omega, hm, h1, h31⟩
  have hnn : ∀ r ∈ l, r.Date ≠ none := by
    intro r hr
    obtain ⟨y, m, d, hd, _⟩ := hval r hr
    simp [hd]
  have hflt := windowFilter_ok_of_noNull (jsNewDateYear (curYear - prevYears))
    (jsNewDateYear (curYear + futYears)) l hnn
  have hemp : l.filter (inWindowB (jsNewDateYear (curYear - prevYears))
      (jsNewDateYear (curYear + futYears))) = [] := by
    rw [List.filter_eq_nil_iff]
    intro r hr
    obtain ⟨y, m, d, hd, _⟩ := hval r hr
    rcases hout r hr y m d hd with h | h <;>
      simp only [inWindowB, hd, decide_eq_true_eq, not_and, not_le] <;> omega
  obtain ⟨ylo, mlo, dlo, hminf, hminmem, hminle⟩ := fallbackMinDate_spec l hne hval0
  obtain ⟨yhi, mhi, dhi, hmaxf, hmaxmem, hmaxge⟩ := fallbackMaxDate_spec l hne hval0
  have h100lo : 100 ≤ ylo := year_bound_of_mem l hval ylo mlo dlo hminmem
  have h100hi : 100 ≤ yhi := year_bound_of_mem l hval yhi mhi dhi hmaxmem
  have hlen : l.length > 0 := List.length_pos.mpr hne
  refine ⟨ylo, yhi, ?_, ?_, ?_, ?_⟩
  · have hsc : (if l.length > 0 then windowFilter (jsNewDateYear (curYear - prevYears))
        (jsNewDateYear (curYear + futYears)) l else Except.ok []) = Except.ok [] := by
      rw [if_pos hlen, hflt, hemp]
    simp only [updateWindow, hsc, List.length_nil, gt_iff_lt, lt_self_iff_false, if_false]
    rw [hminf, hmaxf]
    have hjlo : jsNewDateYear ylo = ylo := by
      unfold jsNewDateYear
      split_ifs <;> omega
    have hjhi : jsNewDateYear (yhi + 1) = yhi + 1 := by
      unfold jsNewDateYear
      split_ifs <;> omega
    simp [jan1Reset, hjlo, hjhi]
  · intro r hr y m d hd
    exact ⟨hminle r hr y m d hd, hmaxge r hr y m d hd⟩
  · obtain ⟨r, hr, hd⟩ := hminmem
    exact ⟨r, hr, mlo, dlo, hd⟩
  · obtain ⟨r, hr, hd⟩ := hmaxmem
    exact ⟨r, hr, mhi, dhi, hd⟩

/-- Record dated 2030-06-10 for the C3 witness. -/
def fwRec : ERecord := { dfltRec with Date := some (.valid 2030 5 10) }

/-- Witness for C3 (amended): one record dated 2030, window 2024..2024 —
the fallback keeps the full sequence with domain Jan 1 2030 .. Jan 1 2031. -/
theorem claim_C3_fallback_domain_witness :
    ∃ ylo yhi,
      updateWindow 2024 0 0 [fwRec] =
        .ok ⟨[fwRec], .valid ylo 0 1, .valid (yhi + 1) 0 1⟩ ∧
      (∀ r ∈ [fwRec], ∀ y m d, r.Date = some (.valid y m d) → ylo ≤ y ∧ y ≤ yhi) ∧
      (∃ r ∈ [fwRec], ∃ m d, r.Date = some (.valid ylo m d)) ∧
      (∃ r ∈ [fwRec], ∃ m d, r.Date = some (.valid yhi m d)) :=
  claim_C3_fallback_domain 2024 0 0 [fwRec] (by simp)
    (by
      intro r hr
      rw [List.mem_singleton] at hr
      exact ⟨2030, 5, 10, by rw [hr]; rfl, by norm_num, by norm_num, by norm_num, by norm_num⟩)
    (by
      intro r hr y m d hd
      rw [List.mem_singleton] at hr
      rw [hr] at hd
      right
      simp [fwRec, dfltRec, JSDate.valid.injEq] at hd
      obtain ⟨e1, e2, e3⟩ := hd
      subst e1
      norm_num [jsNewDateYear])

end TimelineBox
